import Mathlib

/-!
Verification of the `tinygp.kernels` module: a composable kernel-function
algebra for Gaussian processes.  Points are modelled as lists of reals
(a scalar point is a one-element list), kernel expression trees as an
inductive type, and the JAX `vmap`-based batched evaluation as list maps.
-/

/-- A point in the input space: a vector of coordinates (scalars are
one-element lists).  Mirrors `JAXArray` inputs treated as single datapoints. -/
abbrev Point := List ℝ

/-- Componentwise subtraction `X1 - X2` of two equal-length coordinate
vectors, as computed by `jnp` broadcasting. -/
def lsub (x y : Point) : List ℝ := List.zipWith (fun a b => a - b) x y

/-- The reduction `jnp.sum(jnp.abs(l))` over the component axis. -/
def l1norm (l : List ℝ) : ℝ := (l.map (fun v => |v|)).sum

/-- The reduction `jnp.sum(jnp.square(l))` over the component axis. -/
def sqSum (l : List ℝ) : ℝ := (l.map (fun v => v ^ 2)).sum

/-- The inner product `X1 @ X2` over the component axis. -/
def dotProd (x y : Point) : ℝ := (List.zipWith (fun a b => a * b) x y).sum

/-- Division of every coordinate by a scalar scale, as in the broadcast
`(X1 - X2) / self.scale` or `X1 / self.scale`. -/
noncomputable def divScale (s : ℝ) (x : List ℝ) : List ℝ := x.map (fun v => v / s)

/-- The kernel expression tree of `tinygp.kernels`.  Each constructor is one
class of the module; parameters are stored exactly as the corresponding
`__init__` stores them (`polynomial` stores `sigma2`, already squared). -/
inductive Kernel : Type where
  | custom (function : Point → Point → ℝ)
  | transform (kernel : Kernel) (metric : Point → Point)
  | sum (kernel1 kernel2 : Kernel)
  | prod (kernel1 kernel2 : Kernel)
  | constant (value : ℝ)
  | dotProduct
  | polynomial (order scale sigma2 : ℝ)
  | exp (scale : ℝ)
  | expSquared (scale : ℝ)
  | matern32 (scale : ℝ)
  | matern52 (scale : ℝ)
  | cosine (period : ℝ)
  | expSineSquared (period gamma : ℝ)
  | rationalQuadratic (alpha : ℝ)

/-- Pointwise evaluation `Kernel.evaluate(X1, X2)`: each branch transcribes
the `evaluate` method of the corresponding class in `tinygp/kernels.py`,
with `jnp.exp`/`jnp.sqrt`/`jnp.cos`/`jnp.sin` as the real functions and the
float `**` power as `Real.rpow`. -/
noncomputable def Kernel.evaluate : Kernel → Point → Point → ℝ
  | .custom f, x1, x2 => f x1 x2
  | .transform k m, x1, x2 => k.evaluate (m x1) (m x2)
  | .sum k1 k2, x1, x2 => k1.evaluate x1 x2 + k2.evaluate x1 x2
  | .prod k1 k2, x1, x2 => k1.evaluate x1 x2 * k2.evaluate x1 x2
  | .constant c, _, _ => c
  | .dotProduct, x1, x2 => dotProd x1 x2
  | .polynomial order scale sigma2, x1, x2 =>
      Real.rpow (dotProd (divScale scale x1) (divScale scale x2) + sigma2) order
  | .exp scale, x1, x2 => Real.exp (-(l1norm (divScale scale (lsub x1 x2))))
  | .expSquared scale, x1, x2 =>
      Real.exp (-(0.5 * sqSum (divScale scale (lsub x1 x2))))
  | .matern32 scale, x1, x2 =>
      (1 + Real.sqrt 3 * l1norm (divScale scale (lsub x1 x2))) *
        Real.exp (-(Real.sqrt 3 * l1norm (divScale scale (lsub x1 x2))))
  | .matern52 scale, x1, x2 =>
      (1 + Real.sqrt 5 * l1norm (divScale scale (lsub x1 x2)) +
          (Real.sqrt 5 * l1norm (divScale scale (lsub x1 x2))) ^ 2 / 3) *
        Real.exp (-(Real.sqrt 5 * l1norm (divScale scale (lsub x1 x2))))
  | .cosine period, x1, x2 =>
      Real.cos (2 * Real.pi * l1norm (divScale period (lsub x1 x2)))
  | .expSineSquared period gamma, x1, x2 =>
      Real.exp (-gamma * Real.sin (Real.pi * l1norm (divScale period (lsub x1 x2))) ^ 2)
  | .rationalQuadratic alpha, x1, x2 =>
      Real.rpow (1 + 0.5 * sqSum (lsub x1 x2) / alpha) (-alpha)

/-- The diagonal branch of `Kernel.__call__` (when `X2 is None`):
`jax.vmap(self.evaluate, in_axes=(0, 0))(X1, X1)` maps `evaluate`
elementwise over `X1` zipped with itself. -/
noncomputable def Kernel.callDiag (k : Kernel) (X1 : List Point) : List ℝ :=
  List.zipWith (fun a b => k.evaluate a b) X1 X1

/-- The full-matrix branch of `Kernel.__call__`: the nested
`jax.vmap(jax.vmap(self.evaluate, in_axes=(None, 0)), in_axes=(0, None))`
produces one row per `X1` entry, one column per `X2` entry. -/
noncomputable def Kernel.callFull (k : Kernel) (X1 X2 : List Point) :
    List (List ℝ) :=
  X1.map (fun x1 => X2.map (fun x2 => k.evaluate x1 x2))

/-- The `isinstance(other, Kernel)` branch of `Kernel.__add__`. -/
def Kernel.addKernel (k other : Kernel) : Kernel := Kernel.sum k other

/-- The bare-numeric branch of `Kernel.__add__`: `Sum(self, Constant(other))`. -/
def Kernel.addScalar (k : Kernel) (other : ℝ) : Kernel :=
  Kernel.sum k (Kernel.constant other)

/-- The bare-numeric branch of `Kernel.__radd__`: `Sum(Constant(other), self)`. -/
def Kernel.raddScalar (other : ℝ) (k : Kernel) : Kernel :=
  Kernel.sum (Kernel.constant other) k

/-- The `isinstance(other, Kernel)` branch of `Kernel.__mul__`. -/
def Kernel.mulKernel (k other : Kernel) : Kernel := Kernel.prod k other

/-- The bare-numeric branch of `Kernel.__mul__`: `Product(self, Constant(other))`. -/
def Kernel.mulScalar (k : Kernel) (other : ℝ) : Kernel :=
  Kernel.prod k (Kernel.constant other)

/-- The bare-numeric branch of `Kernel.__rmul__`: `Product(Constant(other), self)`. -/
def Kernel.rmulScalar (other : ℝ) (k : Kernel) : Kernel :=
  Kernel.prod (Kernel.constant other) k

/-- Modelled from the spec: `unit_metric` from `tinygp/metrics.py` (imported
by `kernels.py` but not part of the given sources) is an identity mapping on
coordinates. -/
def unit_metric : Point → Point := fun x => x

/-- Modelled from the spec: `diagonal_metric` from `tinygp/metrics.py`
(imported by `kernels.py` but not part of the given sources) builds a fixed
diagonal-scaling metric from a scale value, dividing each coordinate
component by the scale, with a scalar scale broadcast to all dimensions. -/
noncomputable def diagonal_metric (scale : ℝ) : Point → Point := fun x => divScale scale x

/-- A metric argument to the `Transform` constructor: absent, a callable, or
a bare (non-callable) scale value. -/
inductive MetricArg : Type where
  | none
  | callable (metric : Point → Point)
  | scaleValue (scale : ℝ)

/-- The `Transform.__init__` dispatch: no metric gives `unit_metric`, a
callable is used unmodified, and any other value is wrapped by
`diagonal_metric`. -/
noncomputable def mkTransform (kernel : Kernel) (metric : MetricArg) : Kernel :=
  match metric with
  | .none => Kernel.transform kernel unit_metric
  | .callable m => Kernel.transform kernel m
  | .scaleValue s => Kernel.transform kernel (diagonal_metric s)

/-- The `evaluate` method on the abstract base class `Kernel` itself:
`raise NotImplementedError()`, unconditionally, for every pair of inputs.
Raising is modelled as returning an `Except.error`. -/
def baseEvaluate (_x1 _x2 : Point) : Except String ℝ :=
  Except.error ("NotImplementedError")

lemma lsub_antisymm (x y : Point) : lsub x y = (lsub y x).map (fun v => -v) := by
  induction x generalizing y with
  | nil => simp [lsub]
  | cons a x ih =>
    cases y with
    | nil => simp [lsub]
    | cons b y => simp [lsub, neg_sub]; simpa [lsub] using ih y

lemma divScale_map_neg (s : ℝ) (l : List ℝ) :
    divScale s (l.map (fun v => -v)) = (divScale s l).map (fun v => -v) := by
  simp [divScale, List.map_map, Function.comp_def, neg_div]

lemma l1norm_map_neg (l : List ℝ) : l1norm (l.map (fun v => -v)) = l1norm l := by
  simp [l1norm, List.map_map, Function.comp_def, abs_neg]

lemma sqSum_map_neg (l : List ℝ) : sqSum (l.map (fun v => -v)) = sqSum l := by
  simp [sqSum, List.map_map, Function.comp_def, neg_sq]

lemma l1norm_lsub_comm (s : ℝ) (x y : Point) :
    l1norm (divScale s (lsub x y)) = l1norm (divScale s (lsub y x)) := by
  rw [lsub_antisymm, divScale_map_neg, l1norm_map_neg]

lemma sqSum_lsub_comm (s : ℝ) (x y : Point) :
    sqSum (divScale s (lsub x y)) = sqSum (divScale s (lsub y x)) := by
  rw [lsub_antisymm, divScale_map_neg, sqSum_map_neg]

lemma sqSum_lsub_comm_unscaled (x y : Point) : sqSum (lsub x y) = sqSum (lsub y x) := by
  rw [lsub_antisymm, sqSum_map_neg]

lemma dotProd_comm (x y : Point) : dotProd x y = dotProd y x := by
  unfold dotProd
  rw [List.zipWith_comm_of_comm]
  exact fun a b => mul_comm a b

/-- Claim C3: `Sum.evaluate` is the pointwise sum of its two children's
evaluations and `Product.evaluate` is the pointwise product, with no other
interaction, for all kernels and points. -/
theorem claim_C3_sum_product_pointwise (A B : Kernel) (x y : Point) :
    (Kernel.sum A B).evaluate x y = A.evaluate x y + B.evaluate x y ∧
    (Kernel.prod A B).evaluate x y = A.evaluate x y * B.evaluate x y :=
  ⟨rfl, rfl⟩

/-- Claim C5: adding or multiplying a kernel with a bare numeric value, on
either side, lifts the number into a `Constant` kernel and preserves the
operand order in the resulting pointwise value. -/
theorem claim_C5_scalar_lifting (A : Kernel) (c : ℝ) (x y : Point) :
    (A.addScalar c).evaluate x y = A.evaluate x y + c ∧
    (Kernel.raddScalar c A).evaluate x y = c + A.evaluate x y ∧
    (A.mulScalar c).evaluate x y = A.evaluate x y * c ∧
    (Kernel.rmulScalar c A).evaluate x y = c * A.evaluate x y :=
  ⟨rfl, rfl, rfl, rfl⟩

/-- Claim C8: invoking `evaluate` on the abstract base `Kernel` raises a
`NotImplementedError` for every pair of inputs: the call never produces a
value. -/
theorem claim_C8_base_evaluate_not_implemented (x1 x2 : Point) :
    baseEvaluate x1 x2 = Except.error ("NotImplementedError") ∧
    ∀ v : ℝ, baseEvaluate x1 x2 ≠ Except.ok v :=
  ⟨rfl, fun _ h => Except.noConfusion h⟩

/-- Claim C10: `Sum` and `Product` are commutative in value: swapping the
two children never changes the evaluated result. -/
theorem claim_C10_sum_product_comm (A B : Kernel) (x y : Point) :
    (Kernel.sum A B).evaluate x y = (Kernel.sum B A).evaluate x y ∧
    (Kernel.prod A B).evaluate x y = (Kernel.prod B A).evaluate x y := by
  constructor
  · show A.evaluate x y + B.evaluate x y = B.evaluate x y + A.evaluate x y
    exact add_comm _ _
  · show A.evaluate x y * B.evaluate x y = B.evaluate x y * A.evaluate x y
    exact mul_comm _ _

/-- Claim C4: every built-in leaf kernel (`Constant`, `DotProduct`,
`Polynomial`, `Exp`, `ExpSquared`, `Matern32`, `Matern52`, `Cosine`,
`ExpSineSquared`, `RationalQuadratic`) is symmetric in its two point
arguments, for arbitrary parameter values. -/
theorem claim_C4_leaf_symmetry (c o s sigma2 p gamma alpha : ℝ) (a b : Point) :
    (Kernel.constant c).evaluate a b = (Kernel.constant c).evaluate b a ∧
    Kernel.dotProduct.evaluate a b = Kernel.dotProduct.evaluate b a ∧
    (Kernel.polynomial o s sigma2).evaluate a b
      = (Kernel.polynomial o s sigma2).evaluate b a ∧
    (Kernel.exp s).evaluate a b = (Kernel.exp s).evaluate b a ∧
    (Kernel.expSquared s).evaluate a b = (Kernel.expSquared s).evaluate b a ∧
    (Kernel.matern32 s).evaluate a b = (Kernel.matern32 s).evaluate b a ∧
    (Kernel.matern52 s).evaluate a b = (Kernel.matern52 s).evaluate b a ∧
    (Kernel.cosine p).evaluate a b = (Kernel.cosine p).evaluate b a ∧
    (Kernel.expSineSquared p gamma).evaluate a b
      = (Kernel.expSineSquared p gamma).evaluate b a ∧
    (Kernel.rationalQuadratic alpha).evaluate a b
      = (Kernel.rationalQuadratic alpha).evaluate b a := by
  refine ⟨rfl, ?_, ?_, ?_, ?_, ?_, ?_, ?_, ?_, ?_⟩ <;>
    simp [Kernel.evaluate, dotProd_comm a b,
      dotProd_comm (divScale s a) (divScale s b), l1norm_lsub_comm s a b,
      sqSum_lsub_comm s a b, sqSum_lsub_comm_unscaled a b, l1norm_lsub_comm p a b]

lemma callFull_length (k : Kernel) (X1 X2 : List Point) :
    (k.callFull X1 X2).length = X1.length := by
  simp [Kernel.callFull]

lemma callFull_row (k : Kernel) (X1 X2 : List Point) (i : ℕ) (hi : i < X1.length) :
    (k.callFull X1 X2).getD i []
      = X2.map (fun x2 => k.evaluate (X1.getD i []) x2) := by
  rw [List.getD_eq_getElem _ _ (by simpa [Kernel.callFull] using hi),
    List.getD_eq_getElem _ _ hi]
  simp [Kernel.callFull]

lemma callFull_getD (k : Kernel) (X1 X2 : List Point) (i j : ℕ)
    (hi : i < X1.length) (hj : j < X2.length) :
    ((k.callFull X1 X2).getD i []).getD j 0
      = k.evaluate (X1.getD i []) (X2.getD j []) := by
  rw [callFull_row k X1 X2 i hi,
    List.getD_eq_getElem _ _ (by simpa using hj), List.getD_eq_getElem _ _ hj]
  simp

lemma callDiag_eq_map (k : Kernel) (X1 : List Point) :
    k.callDiag X1 = X1.map (fun x => k.evaluate x x) := by
  induction X1 with
  | nil => rfl
  | cons a X ih => simp [Kernel.callDiag]

lemma callDiag_getD (k : Kernel) (X1 : List Point) (i : ℕ) (hi : i < X1.length) :
    (k.callDiag X1).getD i 0 = k.evaluate (X1.getD i []) (X1.getD i []) := by
  rw [callDiag_eq_map,
    List.getD_eq_getElem _ _ (by simpa using hi), List.getD_eq_getElem _ _ hi]
  simp

/-- Claim C1: the two-argument batched call returns a matrix with one row
per `X1` entry and one column per `X2` entry, whose `[i, j]` entry is
`evaluate(X1[i], X2[j])`, rows ordered by `X1` index and columns by `X2`
index. -/
theorem claim_C1_full_matrix (k : Kernel) (X1 X2 : List Point) :
    (k.callFull X1 X2).length = X1.length ∧
    (∀ i, i < X1.length → ((k.callFull X1 X2).getD i []).length = X2.length) ∧
    (∀ i j, i < X1.length → j < X2.length →
      ((k.callFull X1 X2).getD i []).getD j 0
        = k.evaluate (X1.getD i []) (X2.getD j [])) := by
  refine ⟨callFull_length k X1 X2, ?_, ?_⟩
  · intro i hi
    rw [callFull_row k X1 X2 i hi]
    simp
  · intro i j hi hj
    exact callFull_getD k X1 X2 i j hi hj

/-- Claim C1 witness: the full-matrix contract instantiated for the
`DotProduct` kernel on concrete two- and one-point arrays. -/
theorem claim_C1_full_matrix_witness :
    (1 : ℕ) < ([[(1 : ℝ)], [2]] : List Point).length ∧
    (0 : ℕ) < ([[(3 : ℝ)]] : List Point).length ∧
    ((Kernel.dotProduct.callFull [[(1 : ℝ)], [2]] [[(3 : ℝ)]]).getD 1 []).getD 0 0
      = Kernel.dotProduct.evaluate (([[(1 : ℝ)], [2]] : List Point).getD 1 [])
          (([[(3 : ℝ)]] : List Point).getD 0 []) :=
  ⟨by simp, by simp,
    (claim_C1_full_matrix Kernel.dotProduct [[(1 : ℝ)], [2]] [[(3 : ℝ)]]).2.2 1 0
      (by simp) (by simp)⟩

/-- Claim C2: the one-argument batched call returns the diagonal: an array
of length `len(X1)` whose `i`-th entry is `evaluate(X1[i], X1[i])`, produced
by a single elementwise map over `X1` (one pointwise evaluation per point,
`O(n)` rather than `O(n^2)`). -/
theorem claim_C2_diagonal (k : Kernel) (X1 : List Point) :
    k.callDiag X1 = X1.map (fun x => k.evaluate x x) ∧
    (k.callDiag X1).length = X1.length ∧
    (∀ i, i < X1.length →
      (k.callDiag X1).getD i 0 = k.evaluate (X1.getD i []) (X1.getD i [])) := by
  refine ⟨callDiag_eq_map k X1, ?_, fun i hi => callDiag_getD k X1 i hi⟩
  rw [callDiag_eq_map]
  simp

/-- Claim C2 witness: the diagonal contract instantiated for the
`DotProduct` kernel on a concrete two-point array. -/
theorem claim_C2_diagonal_witness :
    (1 : ℕ) < ([[(1 : ℝ)], [2]] : List Point).length ∧
    (Kernel.dotProduct.callDiag [[(1 : ℝ)], [2]]).getD 1 0
      = Kernel.dotProduct.evaluate (([[(1 : ℝ)], [2]] : List Point).getD 1 [])
          (([[(1 : ℝ)], [2]] : List Point).getD 1 []) :=
  ⟨by simp,
    (claim_C2_diagonal Kernel.dotProduct [[(1 : ℝ)], [2]]).2.2 1 (by simp)⟩

/-- Claim C9: the diagonal fast path agrees with the general path: the
`i`-th entry of the one-argument call equals the `[i, i]` entry of the
two-argument call with the same array passed twice. -/
theorem claim_C9_diag_agrees_with_full (k : Kernel) (X : List Point) (i : ℕ)
    (hi : i < X.length) :
    (k.callDiag X).getD i 0 = ((k.callFull X X).getD i []).getD i 0 := by
  rw [callDiag_getD k X i hi, callFull_getD k X X i i hi hi]

/-- Claim C9 witness: the two paths agree for the `DotProduct` kernel on a
concrete two-point array at index 1. -/
theorem claim_C9_witness :
    (1 : ℕ) < ([[(1 : ℝ)], [2]] : List Point).length ∧
    (Kernel.dotProduct.callDiag [[(1 : ℝ)], [2]]).getD 1 0
      = ((Kernel.dotProduct.callFull [[(1 : ℝ)], [2]] [[(1 : ℝ)], [2]]).getD 1 []).getD 1 0 :=
  ⟨by simp,
    claim_C9_diag_agrees_with_full Kernel.dotProduct [[(1 : ℝ)], [2]] 1 (by simp)⟩

lemma divScale_one (l : List ℝ) : divScale 1 l = l := by
  simp [divScale]

lemma lsub_divScale (s : ℝ) (x y : Point) :
    lsub (divScale s x) (divScale s y) = divScale s (lsub x y) := by
  induction x generalizing y with
  | nil => simp [lsub, divScale]
  | cons a x ih =>
    cases y with
    | nil => simp [lsub, divScale]
    | cons b y =>
      simp [lsub, divScale, div_sub_div_same] at ih ⊢
      simpa [lsub, divScale] using ih y

/-- Claim C6: a `Transform` built with a non-callable scale value divides
each input coordinate by that scale before delegating, and is therefore
equivalent to building the kernel with that length scale; in particular
`Transform(Matern32(), 4.5).evaluate(0.5, 0.1) ==
Matern32(4.5).evaluate(0.5, 0.1)`. -/
theorem claim_C6_transform_scale (k : Kernel) (s : ℝ) (x y : Point) :
    (mkTransform k (MetricArg.scaleValue s)).evaluate x y
      = k.evaluate (divScale s x) (divScale s y) ∧
    (mkTransform (Kernel.matern32 1) (MetricArg.scaleValue s)).evaluate x y
      = (Kernel.matern32 s).evaluate x y ∧
    (mkTransform (Kernel.matern32 1) (MetricArg.scaleValue 4.5)).evaluate
        [(0.5 : ℝ)] [(0.1 : ℝ)]
      = (Kernel.matern32 4.5).evaluate [(0.5 : ℝ)] [(0.1 : ℝ)] := by
  have key : ∀ (t : ℝ) (a b : Point),
      (mkTransform (Kernel.matern32 1) (MetricArg.scaleValue t)).evaluate a b
        = (Kernel.matern32 t).evaluate a b := by
    intro t a b
    show (Kernel.matern32 1).evaluate (diagonal_metric t a) (diagonal_metric t b)
      = (Kernel.matern32 t).evaluate a b
    simp [Kernel.evaluate, diagonal_metric, lsub_divScale, divScale_one]
  exact ⟨rfl, key s x y, key 4.5 [(0.5 : ℝ)] [(0.1 : ℝ)]⟩

lemma lsub_self (x : Point) : lsub x x = x.map (fun _ => (0 : ℝ)) := by
  induction x with
  | nil => rfl
  | cons a x ih => simp [lsub]

lemma divScale_zeros (s : ℝ) (x : Point) :
    divScale s (x.map (fun _ => (0 : ℝ))) = x.map (fun _ => (0 : ℝ)) := by
  simp [divScale, List.map_map, Function.comp_def, zero_div]

lemma l1norm_zeros (x : Point) : l1norm (x.map (fun _ => (0 : ℝ))) = 0 := by
  induction x with
  | nil => rfl
  | cons a x ih => simp [l1norm]

lemma sqSum_zeros (x : Point) : sqSum (x.map (fun _ => (0 : ℝ))) = 0 := by
  induction x with
  | nil => rfl
  | cons a x ih => simp [sqSum]

lemma l1norm_self (s : ℝ) (x : Point) : l1norm (divScale s (lsub x x)) = 0 := by
  rw [lsub_self, divScale_zeros, l1norm_zeros]

/-- Claim C7: every stationary leaf kernel (`Exp`, `ExpSquared`,
`Matern32`, `Matern52`, `RationalQuadratic`) with its default/unit scale
parameters evaluates to 1 at zero distance: `K.evaluate(x, x) == 1`. -/
theorem claim_C7_unit_self_similarity (x : Point) (alpha : ℝ) :
    (Kernel.exp 1).evaluate x x = 1 ∧
    (Kernel.expSquared 1).evaluate x x = 1 ∧
    (Kernel.matern32 1).evaluate x x = 1 ∧
    (Kernel.matern52 1).evaluate x x = 1 ∧
    (Kernel.rationalQuadratic alpha).evaluate x x = 1 := by
  have h1 := l1norm_self 1 x
  have h2 : sqSum (divScale 1 (lsub x x)) = 0 := by
    rw [lsub_self, divScale_zeros, sqSum_zeros]
  have h3 : sqSum (lsub x x) = 0 := by rw [lsub_self, sqSum_zeros]
  refine ⟨?_, ?_, ?_, ?_, ?_⟩ <;>
    simp [Kernel.evaluate, h1, h2, h3, Real.exp_zero, Real.one_rpow]
